import Mathlib

/-!
Shallow embedding of the `teeproxy` traffic-shadowing reverse proxy
(`src/teeproxy.go`, with the timeout transport variant of
`src/unnamed/part_002`) and proofs about its behaviour.

Modelling conventions:
* byte sequences are `List Nat`;
* Go `http.Header` is an association list of (canonical key, values);
* the shadow dispatcher `clientCall` is a function from the per-attempt
  behaviour of the shadow backend to the trace of observable events
  (round trips, log lines, sleeps);
* Go `int` counters (`retryCount`, loop index) are `Int`.
-/

set_option autoImplicit false

namespace Teeproxy

/-- Request/response bodies as raw byte sequences. -/
abbrev Bytes := List Nat

/-- The fields of `net/url.URL` used by teeproxy. -/
structure URL where
  scheme : String
  host : String
  path : String
  rawQuery : String
deriving Repr, DecidableEq

/-- `type Hosts struct { Target url.URL; Alternative url.URL }`. -/
structure Hosts where
  target : URL
  alternative : URL
deriving Repr, DecidableEq

/-- `func singleJoiningSlash(a, b string) string` (teeproxy.go:192-202). -/
def singleJoiningSlash (a b : String) : String :=
  let aslash := a.endsWith "/"
  let bslash := b.startsWith "/"
  if aslash && bslash then a ++ b.drop 1
  else if !aslash && !bslash then a ++ "/" ++ b
  else a ++ b

/-- URL rewriting performed in place on `req.URL` by `teeDirector`
(teeproxy.go:111-119): scheme/host from the target, path joined with the
target base path, query merged with the target base query. -/
def teeDirectorURL (hosts : Hosts) (u : URL) : URL :=
  let targetQuery := hosts.target.rawQuery
  { scheme := hosts.target.scheme
    host := hosts.target.host
    path := singleJoiningSlash hosts.target.path u.path
    rawQuery :=
      if targetQuery = "" || u.rawQuery = "" then targetQuery ++ u.rawQuery
      else targetQuery ++ "&" ++ u.rawQuery }

/-! ### Logging (teeproxy.go:180-190) -/

/-- Replace every occurrence of the character `c` in `s` by the character
sequence `r` (the single-character-pattern case of Go `strings.Replace`
with `n = -1`). -/
def replaceChar (s : List Char) (c : Char) (r : List Char) : List Char :=
  s.flatMap (fun x => if x = c then r else [x])

/-- `func removeEndsOfLines(s string) string` (teeproxy.go:180-182):
`strings.Replace(strings.Replace(s, "\n", "\\n", -1), "\r", "\\r", -1)`. -/
def removeEndsOfLines (s : String) : String :=
  String.mk (replaceChar (replaceChar s.toList '\n' ['\\', 'n']) '\r' ['\\', 'r'])

/-- `func logMessage(id, messageType, message string)` (teeproxy.go:188-190):
the emitted line `fmt.Printf("[%s][%s][%s][%s]\n", timestamp, id,
messageType, message)`, with the already-formatted timestamp passed in. -/
def logMessage (timestamp id messageType message : String) : String :=
  "[" ++ timestamp ++ "][" ++ id ++ "][" ++ messageType ++ "][" ++ message ++ "]\n"

/-! ### Headers: Go `net/http.Header` and `net/textproto` canonicalization -/

/-- ASCII lower-casing of one character (Go `c += 'a' - 'A'`). -/
def goToLower (c : Char) : Char :=
  if 'A' ≤ c && c ≤ 'Z' then Char.ofNat (c.toNat + 32) else c

/-- ASCII upper-casing of one character (Go `c -= 'a' - 'A'`). -/
def goToUpper (c : Char) : Char :=
  if 'a' ≤ c && c ≤ 'z' then Char.ofNat (c.toNat - 32) else c

/-- Go `textproto.validHeaderFieldByte`: the RFC 7230 token characters. -/
def validHeaderFieldChar (c : Char) : Bool :=
  c.isAlphanum || c = '!' || c = '#' || c = '$' || c = '%' || c = '&' ||
  c = Char.ofNat 39 || c = '*' || c = '+' || c = '-' || c = '.' ||
  c = '^' || c = '_' || c = Char.ofNat 96 || c = '|' || c = '~'

/-- The case-mapping pass of Go `textproto.CanonicalMIMEHeaderKey`:
upper-case a letter at the start or after a `-`, lower-case the rest. -/
def canonicalizeChars : List Char → Bool → List Char
  | [], _ => []
  | c :: cs, upper =>
    let c' := if upper then goToUpper c else goToLower c
    c' :: canonicalizeChars cs (c' = '-')

/-- Go `textproto.CanonicalMIMEHeaderKey`: keys containing a non-token
character are returned unchanged. -/
def canonicalMIMEHeaderKey (s : String) : String :=
  if s.toList.all validHeaderFieldChar then
    String.mk (canonicalizeChars s.toList true)
  else s

/-- Go `http.Header`: a map from canonical keys to value lists, modelled as
an association list (the well-formedness predicate `headerWF` below states
the map invariants: canonical and duplicate-free keys, non-empty value
lists). -/
abbrev Header := List (String × List String)

/-- `Header.Get`: first value under the canonicalized key, `""` when the
key is absent or its value list is empty. -/
def headerGet (h : Header) (key : String) : String :=
  match h.find? (fun p => p.1 = canonicalMIMEHeaderKey key) with
  | some p => match p.2 with
    | [] => ""
    | v :: _ => v
  | none => ""

/-- `Header.Del`: remove the canonicalized key. -/
def headerDel (h : Header) (key : String) : Header :=
  h.filter (fun p => p.1 ≠ canonicalMIMEHeaderKey key)

/-- `Header.Add`: append one value under the canonicalized key. -/
def headerAdd (h : Header) (key v : String) : Header :=
  let ck := canonicalMIMEHeaderKey key
  if h.any (fun p => p.1 = ck) then
    h.map (fun p => if p.1 = ck then (p.1, p.2 ++ [v]) else p)
  else h ++ [(ck, [v])]

/-- `func copyHeader(dst, src http.Header)` (teeproxy.go:167-173). -/
def copyHeader (dst src : Header) : Header :=
  src.foldl (fun d p => p.2.foldl (fun d2 v => headerAdd d2 p.1 v) d) dst

/-- The `hopHeaders` variable (teeproxy.go:28-37); `"Te"` is the
canonicalized form of `"TE"`. -/
def hopHeaders : List String :=
  ["Connection", "Keep-Alive", "Proxy-Authenticate", "Proxy-Authorization",
   "Te", "Trailers", "Transfer-Encoding", "Upgrade"]

/-- The hop-by-hop stripping loop of `duplicateRequest`
(teeproxy.go:152-162).  The state is the clone's current header map plus
the `copiedHeaders` flag; the copy, made at most once, reads from the
original map `orig`.  Returns the final map and whether a copy was made. -/
def stripHopHeaders (orig : Header) : Header × Bool :=
  hopHeaders.foldl
    (fun st h =>
      if headerGet st.1 h ≠ "" then
        let base := if st.2 then st.1 else copyHeader [] orig
        (headerDel base h, true)
      else st)
    (orig, false)

/-- Map invariants of a parsed `http.Header`: every key canonical, keys
duplicate-free, every value list non-empty. -/
def headerWF (h : Header) : Prop :=
  (∀ p ∈ h, canonicalMIMEHeaderKey p.1 = p.1 ∧ p.2 ≠ []) ∧
  (h.map Prod.fst).Nodup

instance (h : Header) : Decidable (headerWF h) := by
  unfold headerWF; infer_instance

/-! ### Requests and request duplication (teeproxy.go:124-165) -/

/-- The fields of `http.Request` used by teeproxy.  `body` holds the bytes
still readable from the request body stream. -/
structure Request where
  method : String
  url : URL
  proto : String
  protoMajor : Nat
  protoMinor : Nat
  header : Header
  body : Bytes
  contentLength : Int
  close : Bool
deriving Repr, DecidableEq

/-- `func duplicateRequest(request *http.Request) (*http.Request, []byte)`
(teeproxy.go:124-165).  `io.Copy(io.MultiWriter(b1, b2), request.Body)`
drains the body once into two equal buffers; `b2` is re-installed as the
primary request's body and `b1` is returned for the shadow clone.  The
clone's `Body` field is left unset (nil): `clientCall` installs a fresh
reader over the returned bytes before every attempt.  Returns
(primary request, shadow clone, buffered body bytes). -/
def duplicateRequest (hosts : Hosts) (request : Request) : Request × Request × Bytes :=
  let b1 := request.body
  let b2 := request.body
  let primary := { request with body := b2 }
  let request2 : Request :=
    { method := request.method
      url := { scheme := hosts.alternative.scheme
               host := hosts.alternative.host
               path := singleJoiningSlash hosts.alternative.path request.url.path
               rawQuery := request.url.rawQuery }
      proto := request.proto
      protoMajor := request.protoMajor
      protoMinor := request.protoMinor
      header := (stripHopHeaders request.header).1
      body := []
      contentLength := request.contentLength
      close := false }
  (primary, request2, b1)

/-! ### The shadow dispatcher `clientCall` (teeproxy.go:56-96) -/

/-- Result of `httputil.DumpResponse` on an attempt's response: the dump
text, or the dump error. -/
inductive DumpResult where
  | ok (s : String)
  | err (e : String)
deriving Repr, DecidableEq

/-- What one round trip to the shadow backend does on a given attempt:
fail at the transport level, return a response (with the result of
`httputil.DumpResponse` on it), or raise a runtime fault (panic) carrying
a value and a stack dump. -/
inductive AttemptResult where
  | transportError (e : String)
  | response (status : Nat) (dump : DumpResult)
  | panicPA (val stack : String)
deriving Repr, DecidableEq

/-- Observable events of one shadow-dispatcher run: round trips (with the
body bytes the attempt sends), log lines by severity, and retry sleeps. -/
inductive Event where
  | roundTrip (attempt : Int) (body : Bytes)
  | logInfo (msg : String)
  | logWarn (msg : String)
  | logError (msg : String)
  | sleep (ms : Int)
deriving Repr, DecidableEq

/-- Result of the unguarded dispatcher body: either a normal finish with
its event trace, or a panic escaping with the events emitted so far. -/
inductive TaskResult where
  | done (events : List Event)
  | panicked (events : List Event) (val stack : String)
deriving Repr, DecidableEq

/-- The events emitted by a dispatcher run, whether or not it panicked. -/
def TaskResult.events : TaskResult → List Event
  | .done evs => evs
  | .panicked evs _ _ => evs

/-- Is this event a round trip to the shadow backend? -/
def isRoundTripEv : Event → Bool
  | .roundTrip _ _ => true
  | _ => false

/-- Is this event a WARN log line? -/
def isWarnEv : Event → Bool
  | .logWarn _ => true
  | _ => false

/-- Is this event an inter-retry sleep? -/
def isSleepEv : Event → Bool
  | .sleep _ => true
  | _ => false

/-- The log line for a response dump result (teeproxy.go:75-80). -/
def dumpEvent : DumpResult → Event
  | .err e => .logError ("Could not create response dump: <" ++ e ++ ">")
  | .ok s => .logInfo ("Response: <" ++ removeEndsOfLines s ++ ">")

/-- The WARN line of teeproxy.go:90. -/
def warnMsg (retry rc : Int) : String :=
  "Received 5xx response. Retrying request " ++ toString (retry + 2) ++ "/" ++ toString rc

/-- The ERROR line of the recover handler (teeproxy.go:59). -/
def recoverMsg (val stack : String) : String :=
  "Recovered in clientCall: <" ++ val ++ "> <" ++ removeEndsOfLines stack ++ ">"

/-- The retry loop of `clientCall` (teeproxy.go:66-95) from loop index
`retry` on, driven by the backend's per-attempt behaviour.  `gas` is the
number of loop iterations still allowed, i.e. `(rc - retry).toNat` for
the loop `for retry := 0; retry < retryCount; retry++` (the wrapper
`clientCallFrom` below supplies it).  Each iteration re-installs a fresh
reader over `body` (recorded in the `roundTrip` event), performs the
round trip, and follows the source's control flow: return on transport
error, return on a non-5xx status, otherwise log WARN and sleep unless
this was the last allowed attempt; after the loop the final
`Request failed` ERROR is logged. -/
def clientCallLoop (backend : Int → AttemptResult) (rc interval : Int) (body : Bytes) :
    Nat → Int → TaskResult
  | 0, _ => .done [.logError "Request failed"]
  | gas + 1, retry =>
    match backend retry with
    | .panicPA v stack => .panicked [.roundTrip retry body] v stack
    | .transportError e =>
        .done [.roundTrip retry body, .logError ("Invoking client failed: <" ++ e ++ ">")]
    | .response st dump =>
        let evs := [.roundTrip retry body, dumpEvent dump]
        if st < 500 || st ≥ 600 then .done evs
        else
          let evs2 := if retry + 1 ≠ rc then evs ++ [.logWarn (warnMsg retry rc), .sleep interval]
                      else evs
          match clientCallLoop backend rc interval body gas (retry + 1) with
          | .done more => .done (evs2 ++ more)
          | .panicked more v stack => .panicked (evs2 ++ more) v stack

/-- The retry loop started at loop index `retry`: there are
`(rc - retry).toNat` iterations left (none when `rc ≤ retry`, matching
the loop condition `retry < retryCount`). -/
def clientCallFrom (backend : Int → AttemptResult) (rc interval : Int)
    (body : Bytes) (retry : Int) : TaskResult :=
  clientCallLoop backend rc interval body (rc - retry).toNat retry

/-- `func clientCall(id string, req *http.Request)` (teeproxy.go:56-96):
duplicates the request, runs the retry loop, and — via the deferred
`recover` — converts an escaping panic into a single ERROR log entry, so
the function always returns normally with a plain event trace. -/
def clientCall (hosts : Hosts) (backend : Int → AttemptResult) (rc interval : Int)
    (req : Request) : List Event :=
  let bodyBytes := (duplicateRequest hosts req).2.2
  match clientCallFrom backend rc interval bodyBytes 0 with
  | .done evs => evs
  | .panicked evs v stack => evs ++ [.logError (recoverMsg v stack)]

/-! ### Serving one inbound request -/

/-- An HTTP response as seen by the client: status and body. -/
structure Response where
  status : Nat
  body : Bytes
deriving Repr, DecidableEq

/-- One inbound request through `teeDirector` + the reverse proxy
(teeproxy.go:98-120, 175-177): the body is buffered and re-installed by
`duplicateRequest`, the shadow dispatcher runs as an independent
background task, and the client's response is the primary backend's
response to the URL-rewritten request.  Returns (client response, shadow
dispatcher trace). -/
def handleRequest (hosts : Hosts) (primaryBackend : Request → Response)
    (backend : Int → AttemptResult) (rc interval : Int) (req : Request) :
    Response × List Event :=
  let primary := (duplicateRequest hosts req).1
  (primaryBackend { primary with url := teeDirectorURL hosts primary.url },
   clientCall hosts backend rc interval req)

/-! ### The timeout-bounded transport (src/unnamed/part_002:30-69) -/

/-- A Go error value, with its `net.Error`-style `Timeout()` report. -/
structure GoError where
  msg : String
  timeout : Bool
deriving Repr, DecidableEq

/-- `netTimeoutError` (part_002:39-44): wraps a message, `Timeout()`
returns true. -/
def netTimeoutError (d : Int) : GoError :=
  { msg := "timed out after " ++ toString d, timeout := true }

/-- A connection-refused transport error reports `Timeout() == false`. -/
def connRefusedError : GoError :=
  { msg := "connection refused", timeout := false }

/-- The behaviour of one underlying `Transport.RoundTrip` call: when (if
ever) it completes, and the response/error pair it would deliver. -/
structure UnderlyingCall where
  completesAt : Option Int
  resp : Option Response
  err : Option GoError
deriving Repr, DecidableEq

/-- The observable outcome of `TimeoutTransport.RoundTrip`: the returned
pair, when the caller's wait returns, and whether `CancelRequest` was
signalled to the in-flight call. -/
structure RoundTripOutcome where
  resp : Option Response
  err : Option GoError
  returnsAt : Int
  cancelSignalled : Bool
deriving Repr, DecidableEq

/-- `func (t *TimeoutTransport) RoundTrip(req)` of src/unnamed/part_002
(lines 47-69): the underlying round trip is launched in its own goroutine
and raced via `select` against `time.After(t.RoundTripTimeout)`.  The
`select` is embedded as a comparison of firing times: the completion wins
exactly when it fires strictly before the timer; on timeout the code calls
`t.Transport.CancelRequest(req)` and returns `netTimeoutError`. -/
def timeoutTransportRoundTrip (timeoutDur : Int) (call : UnderlyingCall) :
    RoundTripOutcome :=
  match call.completesAt with
  | some t =>
      if t < timeoutDur then
        { resp := call.resp, err := call.err, returnsAt := t, cancelSignalled := false }
      else
        { resp := none, err := some (netTimeoutError timeoutDur),
          returnsAt := timeoutDur, cancelSignalled := true }
  | none =>
      { resp := none, err := some (netTimeoutError timeoutDur),
        returnsAt := timeoutDur, cancelSignalled := true }

/-! ### Concrete fixtures used to instantiate theorems -/

/-- A sample host configuration. -/
def sampleHosts : Hosts :=
  { target := ⟨"http", "t", "/base", "x=1"⟩
    alternative := ⟨"http", "s", "/alt", ""⟩ }

/-- A sample inbound request. -/
def sampleRequest : Request :=
  { method := "GET"
    url := ⟨"http", "c", "/foo", "y=2"⟩
    proto := "HTTP/1.1"
    protoMajor := 1
    protoMinor := 1
    header := []
    body := [9, 8]
    contentLength := 2
    close := false }

/-- A shadow backend answering 503 on attempt 0 and 404 afterwards. -/
def mixedBackend : Int → AttemptResult :=
  fun j => if j = 0 then .response 503 (.ok "d") else .response 404 (.ok "e")

/-- The copy-on-write predicate of the hop-by-hop stripping loop: an entry
of the original map survives unless its key is one of the processed hop
header names with a non-empty first value. -/
def hopRetained (orig : Header) (processed : List String) (p : String × List String) : Bool :=
  !(decide (p.1 ∈ processed) && decide (headerGet orig p.1 ≠ ""))

/-! ## Theorems -/

/-- C7: the primary dispatcher's query merge concatenates directly when
either side is empty and joins with `&` otherwise, and the rewritten URL
takes the target's scheme and host with the joined path. -/
theorem teeDirector_query_merge (hosts : Hosts) (u : URL) :
    ((hosts.target.rawQuery = "" ∨ u.rawQuery = "") →
      (teeDirectorURL hosts u).rawQuery = hosts.target.rawQuery ++ u.rawQuery) ∧
    (hosts.target.rawQuery ≠ "" → u.rawQuery ≠ "" →
      (teeDirectorURL hosts u).rawQuery = hosts.target.rawQuery ++ "&" ++ u.rawQuery) ∧
    (teeDirectorURL hosts u).scheme = hosts.target.scheme ∧
    (teeDirectorURL hosts u).host = hosts.target.host ∧
    (teeDirectorURL hosts u).path = singleJoiningSlash hosts.target.path u.path := by
  refine ⟨?_, ?_, rfl, rfl, rfl⟩
  · rintro (h | h) <;> simp [teeDirectorURL, h]
  · intro h1 h2
    simp [teeDirectorURL, h1, h2]

/-- Witness for C7 at `merge("x=1", "y=2")`. -/
theorem teeDirector_query_merge_witness :
    (teeDirectorURL sampleHosts sampleRequest.url).rawQuery = "x=1&y=2" :=
  ((teeDirector_query_merge sampleHosts sampleRequest.url).2.1
    (by decide) (by decide)).trans (by decide)

/-- C8 counterexample: `logMessage` itself performs no newline escaping —
a message containing `"\n"` is emitted verbatim, so the log entry spans
two output lines, contradicting the claim that every embedded `\n` in the
message is escaped by the logging function. -/
theorem logMessage_counterexample :
    logMessage "t" "i" "ERROR" "a\nb" = "[t][i][ERROR][a\nb]\n" ∧
    (logMessage "t" "i" "ERROR" "a\nb").toList.count '\n' = 2 ∧
    logMessage "t" "i" "ERROR" "a\nb" ≠
      "[t][i][ERROR][" ++ removeEndsOfLines "a\nb" ++ "]\n" := by
  refine ⟨by decide, by decide, by decide⟩

/-- Replacing `c` by `r` leaves no occurrence of `a` when `a` does not
occur in `r` and `a` is either `c` itself or absent from the input. -/
theorem count_replaceChar_eq_zero (c a : Char) (r : List Char) (har : a ∉ r)
    (s : List Char) (h : a = c ∨ s.count a = 0) :
    (replaceChar s c r).count a = 0 := by
  rw [List.count_eq_zero]
  intro hmem
  rw [replaceChar, List.mem_flatMap] at hmem
  obtain ⟨x, hx, hfx⟩ := hmem
  by_cases hxc : x = c
  · rw [if_pos hxc] at hfx
    exact har hfx
  · rw [if_neg hxc] at hfx
    have hax : a = x := by simpa using hfx
    rcases h with h | h
    · exact hxc (by rw [← hax]; exact h)
    · rw [List.count_eq_zero] at h
      exact h (hax ▸ hx)

/-- The output of `removeEndsOfLines` contains no `\n` and no `\r`. -/
theorem removeEndsOfLines_no_breaks (s : String) :
    (removeEndsOfLines s).toList.count '\n' = 0 ∧
    (removeEndsOfLines s).toList.count '\r' = 0 := by
  unfold removeEndsOfLines
  constructor
  · exact count_replaceChar_eq_zero '\r' '\n' ['\\', 'r'] (by decide) _
      (Or.inr (count_replaceChar_eq_zero '\n' '\n' ['\\', 'n'] (by decide) _ (Or.inl rfl)))
  · exact count_replaceChar_eq_zero '\r' '\r' ['\\', 'r'] (by decide) _ (Or.inl rfl)

/-- C8 amended: `logMessage` emits `[ts][id][sev][msg]` followed by a
newline with the message included verbatim; escaping is performed by
`removeEndsOfLines` (applied by callers), whose output contains no line
break, so a log entry whose message went through `removeEndsOfLines` is a
single output line. -/
theorem logMessage_escaped_single_line (ts id sev msg : String)
    (hts : ts.toList.count '\n' = 0 ∧ ts.toList.count '\r' = 0)
    (hid : id.toList.count '\n' = 0 ∧ id.toList.count '\r' = 0)
    (hsev : sev.toList.count '\n' = 0 ∧ sev.toList.count '\r' = 0) :
    logMessage ts id sev (removeEndsOfLines msg) =
      "[" ++ ts ++ "][" ++ id ++ "][" ++ sev ++ "][" ++ removeEndsOfLines msg ++ "]\n" ∧
    (logMessage ts id sev (removeEndsOfLines msg)).toList.count '\n' = 1 ∧
    (logMessage ts id sev (removeEndsOfLines msg)).toList.count '\r' = 0 := by
  have happ : ∀ a b : String, (a ++ b).toList = a.toList ++ b.toList := by
    intro a b
    simp [String.toList]
  have hmsg := removeEndsOfLines_no_breaks msg
  have d1 : List.count '\n' ts.data = 0 := hts.1
  have d2 : List.count '\r' ts.data = 0 := hts.2
  have d3 : List.count '\n' id.data = 0 := hid.1
  have d4 : List.count '\r' id.data = 0 := hid.2
  have d5 : List.count '\n' sev.data = 0 := hsev.1
  have d6 : List.count '\r' sev.data = 0 := hsev.2
  have d7 : List.count '\n' (removeEndsOfLines msg).data = 0 := hmsg.1
  have d8 : List.count '\r' (removeEndsOfLines msg).data = 0 := hmsg.2
  refine ⟨rfl, ?_, ?_⟩ <;>
    simp [logMessage, happ, List.count_append, d1, d2, d3, d4, d5, d6, d7, d8]

/-- Witness for C8's amended theorem at a concrete multi-line message. -/
theorem logMessage_escaped_single_line_witness :
    (logMessage "t" "i" "ERROR" (removeEndsOfLines "a\nb")).toList.count '\n' = 1 :=
  (logMessage_escaped_single_line "t" "i" "ERROR" "a\nb"
    (by decide) (by decide) (by decide)).2.1

/-- C5: the timeout-bounded transport of `src/unnamed/part_002`: when the
deadline fires before the underlying round trip completes (or the call
never completes), the caller's wait returns at the deadline with
cancellation signalled and a distinguished timeout error (`Timeout()`
reports true, unlike connection-refused or protocol errors); when the
round trip completes first, its result is forwarded unchanged. -/
theorem timeoutTransport_roundTrip_spec (d : Int) (call : UnderlyingCall) :
    ((call.completesAt = none ∨ ∃ t, call.completesAt = some t ∧ d ≤ t) →
      timeoutTransportRoundTrip d call =
        { resp := none, err := some (netTimeoutError d), returnsAt := d,
          cancelSignalled := true } ∧
      (netTimeoutError d).timeout = true ∧
      ∀ g : GoError, g.timeout = false → some (netTimeoutError d) ≠ some g) ∧
    (∀ t, call.completesAt = some t → t < d →
      timeoutTransportRoundTrip d call =
        { resp := call.resp, err := call.err, returnsAt := t,
          cancelSignalled := false }) := by
  constructor
  · rintro (h | ⟨t, ht, hle⟩)
    · refine ⟨by simp [timeoutTransportRoundTrip, h], rfl, ?_⟩
      intro g hg heq
      have : (netTimeoutError d).timeout = g.timeout := by
        rw [Option.some_inj.mp heq]
      simp [netTimeoutError, hg] at this
    · refine ⟨?_, rfl, ?_⟩
      · simp [timeoutTransportRoundTrip, ht]
        omega
      · intro g hg heq
        have : (netTimeoutError d).timeout = g.timeout := by
          rw [Option.some_inj.mp heq]
        simp [netTimeoutError, hg] at this
  · intro t ht hlt
    simp [timeoutTransportRoundTrip, ht, hlt]

/-- Witness for C5: an underlying call that never completes, deadline 5. -/
theorem timeoutTransport_roundTrip_spec_witness :
    timeoutTransportRoundTrip 5 ⟨none, none, none⟩ =
      { resp := none, err := some (netTimeoutError 5), returnsAt := 5,
        cancelSignalled := true } ∧
    (netTimeoutError 5).timeout = true :=
  ⟨((timeoutTransport_roundTrip_spec 5 ⟨none, none, none⟩).1 (Or.inl rfl)).1,
   ((timeoutTransport_roundTrip_spec 5 ⟨none, none, none⟩).1 (Or.inl rfl)).2.1⟩

/-- C10: the shadow clone carries the original `ContentLength` verbatim for
every input, and the clone's `ContentLength` can exceed the length of the
buffered body bytes (partial/failed body read). -/
theorem duplicateRequest_contentLength :
    (∀ (hosts : Hosts) (req : Request),
      ((duplicateRequest hosts req).2.1).contentLength = req.contentLength) ∧
    (∃ (hosts : Hosts) (req : Request),
      (((duplicateRequest hosts req).2.2).length : Int) <
        ((duplicateRequest hosts req).2.1).contentLength) := by
  refine ⟨fun hosts req => rfl, ⟨sampleHosts, { sampleRequest with body := [], contentLength := 5 }, ?_⟩⟩
  decide

/-- C9: with a zero or negative retry count the attempt loop body never
executes — no round trip happens — yet the final `Request failed` ERROR
is logged unconditionally. -/
theorem clientCall_nonpositive_retryCount (hosts : Hosts) (backend : Int → AttemptResult)
    (rc interval : Int) (req : Request) (h : rc ≤ 0) :
    clientCall hosts backend rc interval req = [.logError "Request failed"] ∧
    (clientCall hosts backend rc interval req).countP isRoundTripEv = 0 := by
  have hz : rc.toNat = 0 := by omega
  constructor <;>
    simp [clientCall, clientCallFrom, hz, clientCallLoop, List.countP_cons, isRoundTripEv]

/-- Witness for C9 at retry count `-1`. -/
theorem clientCall_nonpositive_retryCount_witness :
    clientCall sampleHosts (fun _ => .response 200 (.ok "d")) (-1) 7 sampleRequest =
      [.logError "Request failed"] :=
  (clientCall_nonpositive_retryCount sampleHosts (fun _ => .response 200 (.ok "d"))
    (-1) 7 sampleRequest (by decide)).1

/-- C2: a panic inside the shadow dispatcher body is intercepted at the
task boundary and converted into a single ERROR log entry appended to
the events emitted so far — `clientCall` always returns normally — and
the client-facing response is a function of the request and the primary
backend alone, unaffected by the shadow task's behaviour. -/
theorem clientCall_panic_isolated (hosts : Hosts) (pb : Request → Response)
    (req : Request) (b1 b2 : Int → AttemptResult) (rc1 i1 rc2 i2 : Int) :
    (handleRequest hosts pb b1 rc1 i1 req).1 = (handleRequest hosts pb b2 rc2 i2 req).1 ∧
    (∀ evs v stack,
      clientCallFrom b1 rc1 i1 (duplicateRequest hosts req).2.2 0 = .panicked evs v stack →
      clientCall hosts b1 rc1 i1 req = evs ++ [.logError (recoverMsg v stack)]) := by
  refine ⟨rfl, ?_⟩
  intro evs v stack h
  simp only [clientCall]
  rw [h]

/-- Witness for C2: a backend that panics on the first attempt. -/
theorem clientCall_panic_isolated_witness :
    clientCall sampleHosts (fun _ => .panicPA "boom" "st") 1 7 sampleRequest =
      [.roundTrip 0 [9, 8]] ++ [.logError (recoverMsg "boom" "st")] :=
  (clientCall_panic_isolated sampleHosts (fun _ => Response.mk 200 [])
    sampleRequest (fun _ => .panicPA "boom" "st") (fun _ => .response 200 (.ok "d"))
    1 7 1 7).2 [.roundTrip 0 [9, 8]] "boom" "st" (by decide)

/-- Every round-trip event of the retry loop carries exactly the buffered
body bytes: a fresh reader over `body` is installed before each attempt. -/
theorem clientCallLoop_roundTrip_body (backend : Int → AttemptResult) (rc interval : Int)
    (body : Bytes) :
    ∀ (gas : Nat) (retry k : Int) (b : Bytes),
      Event.roundTrip k b ∈ (clientCallLoop backend rc interval body gas retry).events →
      b = body := by
  intro gas
  induction gas with
  | zero =>
    intro retry k b h
    simp [clientCallLoop, TaskResult.events] at h
  | succ g ih =>
    intro retry k b h
    rw [clientCallLoop] at h
    cases hb : backend retry with
    | panicPA v stack =>
      rw [hb] at h
      simp [TaskResult.events] at h
      exact h.2
    | transportError e =>
      rw [hb] at h
      simp [TaskResult.events] at h
      exact h.2
    | response st dump =>
      rw [hb] at h
      simp only at h
      by_cases h5 : (decide (st < 500) || decide (st ≥ 600)) = true
      · rw [if_pos h5] at h
        cases dump <;> simp [TaskResult.events, dumpEvent] at h <;> exact h.2
      · rw [if_neg h5] at h
        cases hrec : clientCallLoop backend rc interval body g (retry + 1) with
        | done more =>
          rw [hrec] at h
          have hmore : Event.roundTrip k b ∈ more → b = body := fun hm =>
            ih (retry + 1) k b (by rw [hrec]; simpa [TaskResult.events] using hm)
          by_cases hlast : retry + 1 ≠ rc
          · rw [if_pos hlast] at h
            cases dump <;> simp [TaskResult.events, dumpEvent] at h <;>
              rcases h with h | h
            · exact h.2
            · exact hmore h
            · exact h.2
            · exact hmore h
          · rw [if_neg hlast] at h
            cases dump <;> simp [TaskResult.events, dumpEvent] at h <;>
              rcases h with h | h
            · exact h.2
            · exact hmore h
            · exact h.2
            · exact hmore h
        | panicked more v stack =>
          rw [hrec] at h
          have hmore : Event.roundTrip k b ∈ more → b = body := fun hm =>
            ih (retry + 1) k b (by rw [hrec]; simpa [TaskResult.events] using hm)
          by_cases hlast : retry + 1 ≠ rc
          · rw [if_pos hlast] at h
            cases dump <;> simp [TaskResult.events, dumpEvent] at h <;>
              rcases h with h | h
            · exact h.2
            · exact hmore h
            · exact h.2
            · exact hmore h
          · rw [if_neg hlast] at h
            cases dump <;> simp [TaskResult.events, dumpEvent] at h <;>
              rcases h with h | h
            · exact h.2
            · exact hmore h
            · exact h.2
            · exact hmore h

/-- C1: the duplication step leaves both sides with independently readable
bodies byte-for-byte equal to the original inbound body — the primary
request's re-installed body and the buffered bytes returned for the
shadow clone both equal the inbound body, and every retry attempt of the
shadow dispatcher sends exactly those buffered bytes. -/
theorem duplicateRequest_body_preserved (hosts : Hosts) (req : Request)
    (backend : Int → AttemptResult) (rc interval : Int) :
    (duplicateRequest hosts req).1.body = req.body ∧
    (duplicateRequest hosts req).2.2 = req.body ∧
    (∀ k b, Event.roundTrip k b ∈ clientCall hosts backend rc interval req →
      b = req.body) := by
  refine ⟨rfl, rfl, ?_⟩
  intro k b h
  simp only [clientCall, clientCallFrom] at h
  cases hrec : clientCallLoop backend rc interval (duplicateRequest hosts req).2.2
      (rc - 0).toNat 0 with
  | done evs =>
    rw [hrec] at h
    exact clientCallLoop_roundTrip_body backend rc interval req.body (rc - 0).toNat 0 k b
      (by rw [show clientCallLoop backend rc interval req.body (rc - 0).toNat 0 =
            TaskResult.done evs from hrec]
          simpa [TaskResult.events] using h)
  | panicked evs v stack =>
    rw [hrec] at h
    simp only [List.mem_append] at h
    rcases h with h | h
    · exact clientCallLoop_roundTrip_body backend rc interval req.body (rc - 0).toNat 0 k b
        (by rw [show clientCallLoop backend rc interval req.body (rc - 0).toNat 0 =
              TaskResult.panicked evs v stack from hrec]
            simpa [TaskResult.events] using h)
    · simp at h

/-- Witness for C1: a concrete request whose single shadow attempt sends
the buffered original body. -/
theorem duplicateRequest_body_preserved_witness :
    Event.roundTrip 0 [9, 8] ∈
      clientCall sampleHosts (fun _ => .response 200 (.ok "d")) 1 7 sampleRequest ∧
    ([9, 8] : Bytes) = sampleRequest.body :=
  ⟨by decide,
   (duplicateRequest_body_preserved sampleHosts sampleRequest
     (fun _ => .response 200 (.ok "d")) 1 7).2.2 0 [9, 8] (by decide)⟩

@[simp] theorem isRoundTripEv_roundTrip (k : Int) (b : Bytes) :
    isRoundTripEv (.roundTrip k b) = true := rfl

@[simp] theorem isRoundTripEv_logInfo (m : String) : isRoundTripEv (.logInfo m) = false := rfl

@[simp] theorem isRoundTripEv_logWarn (m : String) : isRoundTripEv (.logWarn m) = false := rfl

@[simp] theorem isRoundTripEv_logError (m : String) : isRoundTripEv (.logError m) = false := rfl

@[simp] theorem isRoundTripEv_sleep (ms : Int) : isRoundTripEv (.sleep ms) = false := rfl

@[simp] theorem isWarnEv_roundTrip (k : Int) (b : Bytes) :
    isWarnEv (.roundTrip k b) = false := rfl

@[simp] theorem isWarnEv_logInfo (m : String) : isWarnEv (.logInfo m) = false := rfl

@[simp] theorem isWarnEv_logWarn (m : String) : isWarnEv (.logWarn m) = true := rfl

@[simp] theorem isWarnEv_logError (m : String) : isWarnEv (.logError m) = false := rfl

@[simp] theorem isWarnEv_sleep (ms : Int) : isWarnEv (.sleep ms) = false := rfl

@[simp] theorem isSleepEv_roundTrip (k : Int) (b : Bytes) :
    isSleepEv (.roundTrip k b) = false := rfl

@[simp] theorem isSleepEv_logInfo (m : String) : isSleepEv (.logInfo m) = false := rfl

@[simp] theorem isSleepEv_logWarn (m : String) : isSleepEv (.logWarn m) = false := rfl

@[simp] theorem isSleepEv_logError (m : String) : isSleepEv (.logError m) = false := rfl

@[simp] theorem isSleepEv_sleep (ms : Int) : isSleepEv (.sleep ms) = true := rfl

/-- A response-dump log line is not a round trip. -/
@[simp] theorem isRoundTripEv_dumpEvent (d : DumpResult) : isRoundTripEv (dumpEvent d) = false := by
  cases d <;> rfl

/-- A response-dump log line is not a WARN line. -/
@[simp] theorem isWarnEv_dumpEvent (d : DumpResult) : isWarnEv (dumpEvent d) = false := by
  cases d <;> rfl

/-- A response-dump log line is not a sleep. -/
@[simp] theorem isSleepEv_dumpEvent (d : DumpResult) : isSleepEv (dumpEvent d) = false := by
  cases d <;> rfl

/-- A response-dump log line is never the final `Request failed` ERROR. -/
theorem dumpEvent_ne_requestFailed (d : DumpResult) :
    dumpEvent d ≠ .logError "Request failed" := by
  cases d with
  | ok s => simp [dumpEvent]
  | err e =>
    simp only [dumpEvent, ne_eq, Event.logError.injEq]
    intro h
    have hlen := congrArg String.length h
    rw [String.length_append, String.length_append] at hlen
    have h1 : "Could not create response dump: <".length = 33 := by decide
    have h2 : ">".length = 1 := by decide
    have h3 : "Request failed".length = 14 := by decide
    rw [h1, h2, h3] at hlen
    omega

/-- When every remaining attempt yields a 5xx response, the retry loop
performs one round trip per remaining iteration with a WARN line and an
inter-retry sleep between consecutive attempts (none after the last), and
ends with the final `Request failed` ERROR. -/
theorem clientCallLoop_all5xx (backend : Int → AttemptResult) (rc interval : Int)
    (body : Bytes) :
    ∀ (gas : Nat) (retry : Int), (gas : Int) + retry = rc →
    (∀ k, retry ≤ k → k < rc →
      ∃ st dump, backend k = .response st dump ∧ 500 ≤ st ∧ st < 600) →
    ∃ evs, clientCallLoop backend rc interval body gas retry = .done evs ∧
      evs.countP isRoundTripEv = gas ∧
      evs.countP isWarnEv = gas - 1 ∧
      evs.countP isSleepEv = gas - 1 ∧
      (∀ e ∈ evs, isSleepEv e = true → e = .sleep interval) ∧
      (∀ e ∈ evs, isWarnEv e = true →
        ∃ k, retry ≤ k ∧ k < rc ∧ e = .logWarn (warnMsg k rc)) ∧
      evs.getLast? = some (.logError "Request failed") := by
  intro gas
  induction gas with
  | zero =>
    intro retry _ _
    refine ⟨[.logError "Request failed"], by simp [clientCallLoop], ?_⟩
    simp [isRoundTripEv, isWarnEv, isSleepEv, List.countP_cons]
  | succ g ih =>
    intro retry hsum hall
    have hlt : retry < rc := by push_cast at hsum; omega
    obtain ⟨st, dump, hb, h5a, h5b⟩ := hall retry le_rfl hlt
    have hcond : ¬((decide (st < 500) || decide (st ≥ 600)) = true) := by
      simp only [Bool.or_eq_true, decide_eq_true_eq]
      omega
    by_cases hlast : retry + 1 ≠ rc
    · have hg : g ≠ 0 := by
        intro h0
        subst h0
        push_cast at hsum
        omega
      obtain ⟨more, hrec, c1, c2, c3, hsv, hwv, hle⟩ := ih (retry + 1)
        (by push_cast at hsum ⊢; omega)
        (fun k hk1 hk2 => hall k (by omega) hk2)
      have hmne : more ≠ [] := by
        intro h0
        rw [h0] at hle
        simp at hle
      refine ⟨[.roundTrip retry body, dumpEvent dump, .logWarn (warnMsg retry rc),
          .sleep interval] ++ more, ?_, ?_, ?_, ?_, ?_, ?_, ?_⟩
      · rw [clientCallLoop, hb]
        simp only [if_neg hcond, if_pos hlast, hrec]
        simp
      · simp [List.countP_cons, c1]
      · simp [List.countP_cons, c2]
        omega
      · simp [List.countP_cons, c3]
        omega
      · intro e he hse
        rcases List.mem_append.mp he with he | he
        · simp only [List.mem_cons, List.not_mem_nil, or_false] at he
          rcases he with he | he | he | he
          · rw [he] at hse; simp at hse
          · rw [he] at hse; simp at hse
          · rw [he] at hse; simp at hse
          · exact he
        · exact hsv e he hse
      · intro e he hwe
        rcases List.mem_append.mp he with he | he
        · simp only [List.mem_cons, List.not_mem_nil, or_false] at he
          rcases he with he | he | he | he
          · rw [he] at hwe; simp at hwe
          · rw [he] at hwe; simp at hwe
          · exact ⟨retry, le_rfl, hlt, he⟩
          · rw [he] at hwe; simp at hwe
        · obtain ⟨k, hk1, hk2, hk3⟩ := hwv e he hwe
          exact ⟨k, by omega, hk2, hk3⟩
      · rw [List.getLast?_append, hle]
        simp
    · have hg : g = 0 := by
        push_cast at hsum
        omega
      subst hg
      refine ⟨[.roundTrip retry body, dumpEvent dump, .logError "Request failed"],
          ?_, ?_, ?_, ?_, ?_, ?_, ?_⟩
      · rw [clientCallLoop, hb]
        simp only [if_neg hcond, if_neg hlast]
        rw [clientCallLoop]
        simp
      · simp [List.countP_cons]
      · simp [List.countP_cons]
      · simp [List.countP_cons]
      · intro e he hse
        simp only [List.mem_cons, List.not_mem_nil, or_false] at he
        rcases he with he | he | he
        · rw [he] at hse; simp at hse
        · rw [he] at hse; simp at hse
        · rw [he] at hse; simp at hse
      · intro e he hwe
        simp only [List.mem_cons, List.not_mem_nil, or_false] at he
        rcases he with he | he | he
        · rw [he] at hwe; simp at hwe
        · rw [he] at hwe; simp at hwe
        · rw [he] at hwe; simp at hwe
      · simp

/-- C3: with retry count `rc ≥ 1` and a shadow backend answering 5xx to
every attempt (no transport error), `clientCall` performs exactly `rc`
round trips, logs `rc - 1` WARN lines noting the retry count, sleeps the
retry interval between consecutive attempts but not after the last
(`rc - 1` sleeps, each of the configured interval), and its final log
event is the ERROR `Request failed`. -/
theorem clientCall_all5xx (hosts : Hosts) (backend : Int → AttemptResult)
    (rc interval : Int) (req : Request) (hrc : 1 ≤ rc)
    (hall : ∀ k, 0 ≤ k → k < rc →
      ∃ st dump, backend k = .response st dump ∧ 500 ≤ st ∧ st < 600) :
    ∃ evs, clientCall hosts backend rc interval req = evs ∧
      evs.countP isRoundTripEv = rc.toNat ∧
      evs.countP isWarnEv = rc.toNat - 1 ∧
      evs.countP isSleepEv = rc.toNat - 1 ∧
      (∀ e ∈ evs, isSleepEv e = true → e = .sleep interval) ∧
      (∀ e ∈ evs, isWarnEv e = true →
        ∃ k, 0 ≤ k ∧ k < rc ∧ e = .logWarn (warnMsg k rc)) ∧
      evs.getLast? = some (.logError "Request failed") := by
  obtain ⟨evs, hrec, c1, c2, c3, hsv, hwv, hle⟩ :=
    clientCallLoop_all5xx backend rc interval (duplicateRequest hosts req).2.2
      (rc - 0).toNat 0 (by omega) (fun k hk1 hk2 => hall k hk1 hk2)
  refine ⟨evs, ?_, by simpa using c1, by simpa using c2, by simpa using c3, hsv, hwv, hle⟩
  simp only [clientCall, clientCallFrom]
  rw [hrec]

/-- Witness for C3: two attempts, both answered with 500. -/
theorem clientCall_all5xx_witness :
    ∃ evs, clientCall sampleHosts (fun _ => .response 500 (.ok "d")) 2 7 sampleRequest = evs ∧
      evs.countP isRoundTripEv = 2 ∧
      evs.getLast? = some (.logError "Request failed") := by
  obtain ⟨evs, he, c1, _, _, _, _, hle⟩ :=
    clientCall_all5xx sampleHosts (fun _ => .response 500 (.ok "d")) 2 7 sampleRequest
      (by decide) (fun k _ _ => ⟨500, .ok "d", rfl, by decide, by decide⟩)
  exact ⟨evs, he, c1, hle⟩

/-- When attempts `retry..k-1` yield 5xx and attempt `k` yields a non-5xx
response, the retry loop performs exactly the round trips up to and
including attempt `k` and stops: no further attempt, no sleep after
attempt `k`, and no final `Request failed` ERROR. -/
theorem clientCallLoop_stops_non5xx (backend : Int → AttemptResult) (rc interval : Int)
    (body : Bytes) (k : Int) (stk : Nat) (dumpk : DumpResult)
    (hbk : backend k = .response stk dumpk) (hnon : stk < 500 ∨ 600 ≤ stk) :
    ∀ (gas : Nat) (retry : Int), (gas : Int) + retry = rc → retry ≤ k → k < rc →
    (∀ j, retry ≤ j → j < k →
      ∃ st dump, backend j = .response st dump ∧ 500 ≤ st ∧ st < 600) →
    ∃ evs, clientCallLoop backend rc interval body gas retry = .done evs ∧
      evs.countP isRoundTripEv = (k - retry).toNat + 1 ∧
      evs.countP isSleepEv = (k - retry).toNat ∧
      evs.countP isWarnEv = (k - retry).toNat ∧
      evs.getLast? = some (dumpEvent dumpk) ∧
      Event.logError "Request failed" ∉ evs := by
  intro gas
  induction gas with
  | zero =>
    intro retry hsum hrk hkrc _
    exfalso
    push_cast at hsum
    omega
  | succ g ih =>
    intro retry hsum hrk hkrc hall
    by_cases hkr : k = retry
    · subst hkr
      have hcond : (decide (stk < 500) || decide (stk ≥ 600)) = true := by
        simp only [Bool.or_eq_true, decide_eq_true_eq]
        omega
      refine ⟨[.roundTrip k body, dumpEvent dumpk], ?_, ?_, ?_, ?_, ?_, ?_⟩
      · rw [clientCallLoop, hbk]
        simp only [if_pos hcond]
      · simp [List.countP_cons]
      · simp [List.countP_cons]
      · simp [List.countP_cons]
      · simp
      · simp only [List.mem_cons, List.not_mem_nil, or_false]
        rintro (h | h)
        · exact absurd h.symm (by simp)
        · exact dumpEvent_ne_requestFailed dumpk h.symm
    · have hrk2 : retry < k := lt_of_le_of_ne hrk (fun h => hkr h.symm)
      obtain ⟨st, dump, hb, h5a, h5b⟩ := hall retry le_rfl hrk2
      have hcond : ¬((decide (st < 500) || decide (st ≥ 600)) = true) := by
        simp only [Bool.or_eq_true, decide_eq_true_eq]
        omega
      have hlast : retry + 1 ≠ rc := by omega
      obtain ⟨more, hrec, c1, c2, c3, hle, hnm⟩ := ih (retry + 1)
        (by push_cast at hsum ⊢; omega) (by omega) hkrc
        (fun j hj1 hj2 => hall j (by omega) hj2)
      have hmne : more ≠ [] := by
        intro h0
        rw [h0] at hle
        simp at hle
      refine ⟨[.roundTrip retry body, dumpEvent dump, .logWarn (warnMsg retry rc),
          .sleep interval] ++ more, ?_, ?_, ?_, ?_, ?_, ?_⟩
      · rw [clientCallLoop, hb]
        simp only [if_neg hcond, if_pos hlast, hrec]
        simp
      · simp [List.countP_cons, c1]
        omega
      · simp [List.countP_cons, c2]
        omega
      · simp [List.countP_cons, c3]
        omega
      · rw [List.getLast?_append, hle]
        simp
      · intro hmem
        rcases List.mem_append.mp hmem with h | h
        · simp only [List.mem_cons, List.not_mem_nil, or_false] at h
          rcases h with h | h | h | h
          · exact absurd h.symm (by simp)
          · exact dumpEvent_ne_requestFailed dump h.symm
          · exact absurd h.symm (by simp)
          · exact absurd h.symm (by simp)
        · exact hnm h

/-- C4: the shadow dispatcher stops immediately after the first attempt
whose status is not in `[500,599]` (2xx and 4xx included): with 5xx on
attempts `0..k-1` and a non-5xx response on attempt `k < rc`, exactly
`k + 1` round trips happen, no sleep or WARN follows attempt `k`, the
trace ends with that attempt's response-dump log line, and the final
`Request failed` ERROR is never logged. -/
theorem clientCall_stops_on_non5xx (hosts : Hosts) (backend : Int → AttemptResult)
    (rc interval : Int) (req : Request) (k : Int) (stk : Nat) (dumpk : DumpResult)
    (hk0 : 0 ≤ k) (hkrc : k < rc)
    (hall : ∀ j, 0 ≤ j → j < k →
      ∃ st dump, backend j = .response st dump ∧ 500 ≤ st ∧ st < 600)
    (hbk : backend k = .response stk dumpk) (hnon : stk < 500 ∨ 600 ≤ stk) :
    ∃ evs, clientCall hosts backend rc interval req = evs ∧
      evs.countP isRoundTripEv = k.toNat + 1 ∧
      evs.countP isSleepEv = k.toNat ∧
      evs.countP isWarnEv = k.toNat ∧
      evs.getLast? = some (dumpEvent dumpk) ∧
      Event.logError "Request failed" ∉ evs := by
  obtain ⟨evs, hrec, c1, c2, c3, hle, hnm⟩ :=
    clientCallLoop_stops_non5xx backend rc interval (duplicateRequest hosts req).2.2
      k stk dumpk hbk hnon (rc - 0).toNat 0 (by omega) hk0 hkrc hall
  refine ⟨evs, ?_, by simpa using c1, by simpa using c2, by simpa using c3, hle, hnm⟩
  simp only [clientCall, clientCallFrom]
  rw [hrec]

/-- Witness for C4: 503 on attempt 0, 404 on attempt 1, retry count 5. -/
theorem clientCall_stops_on_non5xx_witness :
    ∃ evs, clientCall sampleHosts mixedBackend 5 7 sampleRequest = evs ∧
      evs.countP isRoundTripEv = 2 ∧
      Event.logError "Request failed" ∉ evs := by
  obtain ⟨evs, he, c1, _, _, _, hnm⟩ :=
    clientCall_stops_on_non5xx sampleHosts mixedBackend 5 7 sampleRequest 1 404 (.ok "e")
      (by decide) (by decide)
      (fun j h1 h2 => by
        have hj : j = 0 := by omega
        subst hj
        exact ⟨503, .ok "d", rfl, by decide, by decide⟩)
      (by decide) (Or.inl (by decide))
  exact ⟨evs, he, c1, hnm⟩

/-! ### Header-map lemmas for the hop-by-hop sanitization -/

/-- Folding `headerAdd` over further values for a key sitting at the end
of the map appends those values to that entry. -/
theorem foldl_headerAdd_extend (k : String) (hk : canonicalMIMEHeaderKey k = k) :
    ∀ (rest : List String) (dst : Header) (acc : List String),
    (∀ p ∈ dst, p.1 ≠ k) →
    rest.foldl (fun d v => headerAdd d k v) (dst ++ [(k, acc)]) = dst ++ [(k, acc ++ rest)] := by
  intro rest
  induction rest with
  | nil => intro dst acc _; simp
  | cons v vs ih =>
    intro dst acc hdst
    rw [List.foldl_cons]
    have hadd : headerAdd (dst ++ [(k, acc)]) k v = dst ++ [(k, acc ++ [v])] := by
      unfold headerAdd
      rw [hk]
      have hany : ((dst ++ [(k, acc)]).any fun p => decide (p.1 = k)) = true := by
        simp
      rw [if_pos hany, List.map_append]
      congr 1
      · have hmap : ∀ p ∈ dst,
            (fun p : String × List String =>
              if p.1 = k then (p.1, p.2 ++ [v]) else p) p = id p :=
          fun p hp => if_neg (hdst p hp)
        rw [List.map_congr_left hmap, List.map_id]
      · simp
    rw [hadd, ih dst (acc ++ [v]) hdst]
    simp

/-- Folding `headerAdd` over a fresh key's values appends one entry
holding all of them. -/
theorem foldl_headerAdd_new (k : String) (hk : canonicalMIMEHeaderKey k = k) :
    ∀ (vs : List String) (dst : Header), vs ≠ [] → (∀ p ∈ dst, p.1 ≠ k) →
    vs.foldl (fun d v => headerAdd d k v) dst = dst ++ [(k, vs)] := by
  intro vs dst hvs hdst
  cases vs with
  | nil => exact absurd rfl hvs
  | cons v rest =>
    rw [List.foldl_cons]
    have hadd : headerAdd dst k v = dst ++ [(k, [v])] := by
      unfold headerAdd
      rw [hk]
      have hany : (dst.any fun p => decide (p.1 = k)) = false := by
        simp only [List.any_eq_false, decide_eq_true_eq]
        exact fun p hp => hdst p hp
      rw [if_neg (by simp [hany])]
    rw [hadd, foldl_headerAdd_extend k hk rest dst [v] hdst]
    simp

/-- `copyHeader` into an accumulator appends the source entries for a
well-formed source whose keys avoid the accumulator's. -/
theorem copyHeader_eq_append :
    ∀ (src dst : Header),
    (∀ p ∈ src, canonicalMIMEHeaderKey p.1 = p.1 ∧ p.2 ≠ []) →
    (src.map Prod.fst).Nodup →
    (∀ p ∈ dst, ∀ q ∈ src, p.1 ≠ q.1) →
    copyHeader dst src = dst ++ src := by
  intro src
  induction src with
  | nil => intro dst _ _ _; simp [copyHeader]
  | cons e rest ih =>
    intro dst h1 h2 hdisj
    obtain ⟨hk, hvs⟩ := h1 e (by simp)
    rw [List.map_cons, List.nodup_cons] at h2
    unfold copyHeader
    rw [List.foldl_cons]
    have hstep : e.2.foldl (fun d2 v => headerAdd d2 e.1 v) dst = dst ++ [(e.1, e.2)] :=
      foldl_headerAdd_new e.1 hk e.2 dst hvs
        (fun p hp => hdisj p hp e (by simp))
    rw [hstep]
    have := ih (dst ++ [(e.1, e.2)]) (fun p hp => h1 p (by simp [hp]))
      h2.2
      (by
        intro p hp q hq
        rcases List.mem_append.mp hp with hp | hp
        · exact hdisj p hp q (by simp [hq])
        · have hpe : p = (e.1, e.2) := by simpa using hp
          rw [hpe]
          intro hcontra
          exact h2.1 (hcontra ▸ List.mem_map_of_mem Prod.fst hq))
    rw [show rest.foldl (fun d p => p.2.foldl (fun d2 v => headerAdd d2 p.1 v) d)
          (dst ++ [(e.1, e.2)]) = copyHeader (dst ++ [(e.1, e.2)]) rest from rfl]
    rw [this]
    simp

/-- `copyHeader` into an empty map reproduces a well-formed header map. -/
theorem copyHeader_self (src : Header) (hwf : headerWF src) : copyHeader [] src = src := by
  have := copyHeader_eq_append src [] hwf.1 hwf.2 (by simp)
  simpa using this

/-- Filtering does not change `find?` for a key whose entries are all
retained by the filter. -/
theorem find?_filter_of_retained (q : String × List String → Bool) (k : String) :
    ∀ l : Header, (∀ p ∈ l, p.1 = k → q p = true) →
    (l.filter q).find? (fun p => decide (p.1 = k)) = l.find? (fun p => decide (p.1 = k)) := by
  intro l
  induction l with
  | nil => intro _; simp
  | cons p t ih =>
    intro h
    by_cases hpk : p.1 = k
    · have hq : q p = true := h p (by simp) hpk
      rw [List.filter_cons_of_pos hq]
      rw [List.find?_cons_of_pos _ (by simpa using hpk),
        List.find?_cons_of_pos _ (by simpa using hpk)]
    · have hrec := ih (fun r hr hk => h r (by simp [hr]) hk)
      cases hq : q p with
      | true =>
        rw [List.filter_cons_of_pos hq]
        rw [List.find?_cons_of_neg _ (by simpa using hpk),
          List.find?_cons_of_neg _ (by simpa using hpk)]
        exact hrec
      | false =>
        rw [List.filter_cons_of_neg (by simp [hq])]
        rw [hrec, List.find?_cons_of_neg _ (by simpa using hpk)]

/-- Filtering out every entry of a key makes `find?` miss. -/
theorem find?_filter_none (q : String × List String → Bool) (k : String) :
    ∀ l : Header, (∀ p ∈ l, p.1 = k → q p = false) →
    (l.filter q).find? (fun p => decide (p.1 = k)) = none := by
  intro l
  induction l with
  | nil => intro _; simp
  | cons p t ih =>
    intro h
    have hrec := ih (fun r hr hk => h r (by simp [hr]) hk)
    cases hq : q p with
    | true =>
      rw [List.filter_cons_of_pos hq]
      have hpk : ¬(p.1 = k) := by
        intro hpk
        rw [h p (by simp) hpk] at hq
        exact Bool.false_ne_true hq
      rw [List.find?_cons_of_neg _ (by simpa using hpk)]
      exact hrec
    | false =>
      rw [List.filter_cons_of_neg (by simp [hq])]
      exact hrec

/-- `Header.Get` is unchanged by a filter that retains every entry of the
canonicalized key. -/
theorem headerGet_filter (l : Header) (q : String × List String → Bool) (k : String)
    (hk : canonicalMIMEHeaderKey k = k)
    (h : ∀ p ∈ l, p.1 = k → q p = true) :
    headerGet (l.filter q) k = headerGet l k := by
  unfold headerGet
  rw [hk, find?_filter_of_retained q k l h]

/-- Invariant of the hop-by-hop stripping fold: after processing
`processed`, the clone's map is the original filtered by `hopRetained`
and the copied flag records whether some processed name had a non-empty
first value. -/
theorem stripHopHeaders_foldl (orig : Header) (hwf : headerWF orig) :
    ∀ (names processed : List String),
    (∀ n ∈ names, canonicalMIMEHeaderKey n = n) →
    (∀ n ∈ names, n ∉ processed) →
    names.Nodup →
    names.foldl
      (fun st h =>
        if headerGet st.1 h ≠ "" then
          let base := if st.2 then st.1 else copyHeader [] orig
          (headerDel base h, true)
        else st)
      (orig.filter (hopRetained orig processed),
       processed.any (fun n => decide (headerGet orig n ≠ ""))) =
      (orig.filter (hopRetained orig (processed ++ names)),
       (processed ++ names).any (fun n => decide (headerGet orig n ≠ ""))) := by
  intro names
  induction names with
  | nil => intro processed _ _ _; simp
  | cons n rest ih =>
    intro processed hcanon hnotin hnodup
    have hcn : canonicalMIMEHeaderKey n = n := hcanon n (by simp)
    have hnp : n ∉ processed := hnotin n (by simp)
    rw [List.nodup_cons] at hnodup
    have hget : headerGet (orig.filter (hopRetained orig processed)) n = headerGet orig n := by
      apply headerGet_filter _ _ _ hcn
      intro p _ hpk
      unfold hopRetained
      rw [hpk]
      simp [hnp]
    have happrest : (processed ++ [n]) ++ rest = processed ++ n :: rest := by simp
    rw [List.foldl_cons]
    dsimp only
    rw [hget]
    by_cases hne : headerGet orig n ≠ ""
    · rw [if_pos hne]
      have hdel : headerDel (orig.filter (hopRetained orig processed)) n =
          orig.filter (hopRetained orig (processed ++ [n])) := by
        unfold headerDel
        rw [hcn, List.filter_filter]
        apply List.filter_congr
        intro p _
        by_cases hpn : p.1 = n
        · simp [hopRetained, hpn, hne]
        · simp [hopRetained, hpn, List.mem_append]
      have hany2 : ((processed ++ [n]).any fun m => decide (headerGet orig m ≠ "")) = true := by
        simp [hne]
      have hIH := ih (processed ++ [n])
        (fun m hm => hcanon m (by simp [hm]))
        (fun m hm => by
          simp only [List.mem_append, List.mem_singleton]
          rintro (hmem | hmem)
          · exact hnotin m (by simp [hm]) hmem
          · exact hnodup.1 (hmem ▸ hm))
        hnodup.2
      rw [hany2, happrest] at hIH
      cases hany : (processed.any fun m => decide (headerGet orig m ≠ "")) with
      | true =>
        rw [if_pos rfl, hdel]
        exact hIH
      | false =>
        rw [if_neg Bool.false_ne_true]
        have hall : ∀ p ∈ orig, hopRetained orig processed p = true := by
          intro p _
          unfold hopRetained
          by_cases hmem : p.1 ∈ processed
          · have hemp : headerGet orig p.1 = "" := by
              have := List.any_eq_false.mp hany p.1 hmem
              simpa using this
            simp [hmem, hemp]
          · simp [hmem]
        have hfid : orig.filter (hopRetained orig processed) = orig :=
          List.filter_eq_self.mpr hall
        rw [show headerDel (copyHeader [] orig) n =
            orig.filter (hopRetained orig (processed ++ [n])) from by
          rw [copyHeader_self orig hwf]
          conv_lhs => rw [← hfid]
          exact hdel]
        exact hIH
    · rw [if_neg hne]
      have hne' : headerGet orig n = "" := not_ne_iff.mp hne
      have hfcong : orig.filter (hopRetained orig processed) =
          orig.filter (hopRetained orig (processed ++ [n])) := by
        apply List.filter_congr
        intro p _
        by_cases hpn : p.1 = n
        · have hgp : headerGet orig p.1 = "" := by rw [hpn]; exact hne'
          simp [hopRetained, hgp]
        · simp [hopRetained, hpn, List.mem_append]
      have hanyeq : (processed.any fun m => decide (headerGet orig m ≠ "")) =
          ((processed ++ [n]).any fun m => decide (headerGet orig m ≠ "")) := by
        simp [hne']
      have hIH := ih (processed ++ [n])
        (fun m hm => hcanon m (by simp [hm]))
        (fun m hm => by
          simp only [List.mem_append, List.mem_singleton]
          rintro (hmem | hmem)
          · exact hnotin m (by simp [hm]) hmem
          · exact hnodup.1 (hmem ▸ hm))
        hnodup.2
      rw [happrest] at hIH
      rw [← hfcong, ← hanyeq] at hIH
      exact hIH

/-- The hop-by-hop stripping loop, characterized: the resulting map keeps
exactly the entries whose key is not a hop-by-hop name with a non-empty
first value; a copy was made iff some hop-by-hop name has a non-empty
first value. -/
theorem stripHopHeaders_eq (orig : Header) (hwf : headerWF orig) :
    stripHopHeaders orig =
      (orig.filter (hopRetained orig hopHeaders),
       hopHeaders.any (fun n => decide (headerGet orig n ≠ ""))) := by
  have h := stripHopHeaders_foldl orig hwf hopHeaders []
    (by decide) (by simp) (by decide)
  have hinit : orig.filter (hopRetained orig []) = orig :=
    List.filter_eq_self.mpr (by intro p _; simp [hopRetained])
  rw [hinit] at h
  simp only [List.any_nil, List.nil_append] at h
  unfold stripHopHeaders
  exact h

/-- C6 counterexample: a hop-by-hop header present with an empty first
value (`Connection: ""`) is neither removed nor triggers a copy — the
sanitizer returns the very same map with the copied flag false, refuting
the claim that every present hop-by-hop header is removed and that a new
map is allocated iff one is present. -/
theorem stripHopHeaders_counterexample :
    "Connection" ∈ hopHeaders ∧
    ([(("Connection" : String), ([""] : List String))] : Header).find?
      (fun p => decide (p.1 = "Connection")) ≠ none ∧
    stripHopHeaders [("Connection", [""])] = ([("Connection", [""])], false) :=
  ⟨by decide, by decide, by decide⟩

/-- C6 amended: for every well-formed header map, the sanitization applied
to the shadow clone removes every hop-by-hop header whose first value is
non-empty (the code tests presence with `Header.Get(h) != ""`), also under
case-variant lookup keys; a new map is allocated iff at least one
hop-by-hop header has a non-empty first value; when none has, the clone's
header map is the very same object as the original's; entries never gain
members (the original is not mutated); and this is exactly the header map
installed in the clone built by `duplicateRequest`. -/
theorem stripHopHeaders_spec (orig : Header) (hwf : headerWF orig) :
    ((stripHopHeaders orig).2 = hopHeaders.any (fun n => decide (headerGet orig n ≠ ""))) ∧
    ((∀ n ∈ hopHeaders, headerGet orig n = "") → stripHopHeaders orig = (orig, false)) ∧
    (∀ n ∈ hopHeaders, headerGet orig n ≠ "" →
      (stripHopHeaders orig).1.find? (fun p => decide (p.1 = n)) = none) ∧
    (∀ k n, n ∈ hopHeaders → canonicalMIMEHeaderKey k = n → headerGet orig n ≠ "" →
      headerGet (stripHopHeaders orig).1 k = "") ∧
    (∀ p ∈ (stripHopHeaders orig).1, p ∈ orig) ∧
    (∀ (hosts : Hosts) (req : Request),
      (duplicateRequest hosts req).2.1.header = (stripHopHeaders req.header).1) := by
  have heq := stripHopHeaders_eq orig hwf
  have hremoved : ∀ n ∈ hopHeaders, headerGet orig n ≠ "" →
      (stripHopHeaders orig).1.find? (fun p => decide (p.1 = n)) = none := by
    intro n hn hne
    rw [heq]
    apply find?_filter_none
    intro p _ hpk
    unfold hopRetained
    rw [hpk]
    simp [hn, hne]
  refine ⟨by rw [heq], ?_, hremoved, ?_, ?_, fun hosts req => by simp only [duplicateRequest]⟩
  · intro hnone
    rw [heq]
    have h2 : (hopHeaders.any fun n => decide (headerGet orig n ≠ "")) = false := by
      simp only [List.any_eq_false, decide_eq_true_eq]
      intro n hn
      simp [hnone n hn]
    rw [h2]
    have h1 : orig.filter (hopRetained orig hopHeaders) = orig := by
      apply List.filter_eq_self.mpr
      intro p _
      unfold hopRetained
      by_cases hmem : p.1 ∈ hopHeaders
      · simp [hmem, hnone p.1 hmem]
      · simp [hmem]
    rw [h1]
  · intro k n hn hck hne
    unfold headerGet
    rw [hck, hremoved n hn hne]
  · intro p hp
    rw [heq] at hp
    exact List.mem_of_mem_filter hp

/-- Witness for C6's amended theorem: a map holding `Connection:
keep-alive` and `Accept`; the sanitizer removes the former. -/
theorem stripHopHeaders_spec_witness :
    (stripHopHeaders [("Connection", ["keep-alive"]), ("Accept", ["*/*"])]).1.find?
      (fun p => decide (p.1 = "Connection")) = none :=
  (stripHopHeaders_spec [("Connection", ["keep-alive"]), ("Accept", ["*/*"])]
    (by decide)).2.2.1 "Connection" (by decide) (by decide)

end Teeproxy
